import Mathlib

/-!
Verification of the RandomProof repository: a shallow embedding of the
commit-reveal randomness core (Solidity commitment ledger, randomness-source
drivers, hashing utilities and the deterministic Fisher-Yates shuffle) with
proofs of the specified properties.

Solidity `bytes32`, `uint256` and `address` values are modelled as `Nat`;
JavaScript 32-bit integer operations are modelled as `Int`/`Nat` arithmetic
with explicit `% 2^32`, and JavaScript doubles holding integer values are
modelled exactly with an explicit round-to-53-bit-significand function.
-/

namespace RandomProof

/-! ## JavaScript numeric primitives -/

/-- JavaScript `ToUint32` — JavaScript `x >>> 0` on an integer-valued number. -/
def toUint32 (n : Int) : Nat := (n % (2 ^ 32)).toNat

/-- JavaScript `ToInt32` — the conversion applied by JavaScript bitwise operators:
reduce mod `2^32` into the signed range `[-2^31, 2^31)`. -/
def toInt32 (n : Int) : Int :=
  let m := n % (2 ^ 32)
  if m < 2 ^ 31 then m else m - 2 ^ 32

/-- Bitwise XOR of two JavaScript 32-bit integers, acting on the unsigned
bit patterns and re-signing the result (`a ^ b` in JS). -/
def xor32 (a b : Int) : Int :=
  toInt32 (Int.ofNat (Nat.xor (toUint32 a) (toUint32 b)))

/-- Round a nonnegative integer to the nearest IEEE-754 double
(53-bit significand, round half to even).  Exact JavaScript semantics for
the integer-valued additions and multiplications modelled here. -/
def fl53Nat (n : Nat) : Nat :=
  if n < 2 ^ 53 then n
  else
    let e := Nat.log2 n - 52
    let q := n / 2 ^ e
    let r := n % 2 ^ e
    let half := 2 ^ (e - 1)
    if r < half then q * 2 ^ e
    else if half < r then (q + 1) * 2 ^ e
    else if q % 2 = 0 then q * 2 ^ e else (q + 1) * 2 ^ e

/-- Sign-preserving rounding of an integer-valued JavaScript double. -/
def fl53 (n : Int) : Int :=
  if n < 0 then -(Int.ofNat (fl53Nat n.natAbs)) else Int.ofNat (fl53Nat n.natAbs)

/-- UTF-16 code units of a character, as returned by `charCodeAt`. -/
def utf16Units (c : Char) : List Nat :=
  if c.toNat < 0x10000 then [c.toNat]
  else
    let v := c.toNat - 0x10000
    [0xD800 + v / 0x400, 0xDC00 + v % 0x400]

/-- The sequence of `charCodeAt` values of a JavaScript string. -/
def charCodes (s : String) : List Nat :=
  s.data.flatMap utf16Units

/-- One step of the widely-used JS string-hash loop
`hash = ((hash << 5) - hash) + char; hash = hash & hash`.
`hash << 5` applies `ToInt32`; the subtraction and addition are exact in
double arithmetic at these magnitudes; `hash & hash` applies `ToInt32`. -/
def jsHashStep (h : Int) (c : Nat) : Int :=
  toInt32 (toInt32 (h * 32) - h + c)

/-- The 32-bit string hash loop used by `mathRandomDriver.ts` and by
`simpleFallbackHash` (first loop): deterministic hash of a string. -/
def jsStringHash (s : String) : Int :=
  (charCodes s).foldl jsHashStep 0

/-! ## Solidity commitment ledger: `contracts/RandomProof.sol`

`requestRandomness` and `fulfillRandomWords` of the `RandomProof` contract.
The VRF coordinator's request-id allocation and `block.timestamp` are inputs
supplied by the chain environment, so they appear as explicit parameters. -/

/-- The `struct RandomnessRequest` of `RandomProof.sol`. -/
structure RandomnessRequest where
  entityHash : Nat
  salt : Nat
  randomness : Nat
  timestamp : Nat
  fulfilled : Bool
  requester : Nat
deriving DecidableEq

/-- The zero value a Solidity mapping yields for an absent key. -/
def emptyRequest : RandomnessRequest :=
  { entityHash := 0, salt := 0, randomness := 0, timestamp := 0
    fulfilled := false, requester := 0 }

/-- Pointwise update of a Solidity mapping. -/
def mapUpd {α : Type} (f : Nat → α) (k : Nat) (v : α) : Nat → α :=
  fun x => if x = k then v else f x

/-- Storage of the `RandomProof` contract. -/
structure ContractState where
  s_requests : Nat → RandomnessRequest
  entityHashToRequestId : Nat → Nat
  processedEntityHashes : Nat → Bool
  requestIds : List Nat
  lastRequestId : Nat

/-- Contract storage right after deployment: all mappings empty. -/
def initialState : ContractState :=
  { s_requests := fun _ => emptyRequest
    entityHashToRequestId := fun _ => 0
    processedEntityHashes := fun _ => false
    requestIds := []
    lastRequestId := 0 }

/-- The custom errors of `RandomProof.sol`. -/
inductive ContractError where
  | EntityAlreadyProcessed (entityHash : Nat)
  | RequestNotFound (requestId : Nat)
deriving DecidableEq

/-- Solidity `requestRandomness(bytes32 entityHash, bytes32 salt)`.
`sender` is `msg.sender`, `ts` is `block.timestamp`, and `coordId` is the
request id returned by `s_vrfCoordinator.requestRandomWords`.  Reverts with
`EntityAlreadyProcessed` when the hash was already submitted; otherwise
stores a pending record, indexes it, and marks the hash processed. -/
def requestRandomness (s : ContractState) (sender ts coordId entityHash salt : Nat) :
    Except ContractError (ContractState × Nat) :=
  if s.processedEntityHashes entityHash then
    .error (.EntityAlreadyProcessed entityHash)
  else
    let requestId := coordId
    .ok ({ s with
            s_requests := mapUpd s.s_requests requestId
              { entityHash := entityHash, salt := salt, randomness := 0
                timestamp := ts, fulfilled := false, requester := sender }
            entityHashToRequestId := mapUpd s.entityHashToRequestId entityHash requestId
            processedEntityHashes := mapUpd s.processedEntityHashes entityHash true
            requestIds := s.requestIds ++ [requestId]
            lastRequestId := requestId },
          requestId)

/-- Solidity `fulfillRandomWords(uint256 requestId, uint256[] calldata randomWords)`:
reverts with `RequestNotFound` when no record exists (`timestamp == 0`),
otherwise unconditionally writes `randomWords[0]` into `randomness` and sets
`fulfilled` — there is no already-fulfilled guard in the source. -/
def fulfillRandomWords (s : ContractState) (requestId : Nat) (randomWords : List Nat) :
    Except ContractError ContractState :=
  let request := s.s_requests requestId
  if request.timestamp = 0 then
    .error (.RequestNotFound requestId)
  else
    .ok { s with
          s_requests := mapUpd s.s_requests requestId
            { request with randomness := randomWords.headD 0, fulfilled := true } }

/-- The storage produced by the success branch of `fulfillRandomWords`:
the record at `requestId` gets `randomness := v` and `fulfilled := true`. -/
def fulfillOnce (s : ContractState) (requestId v : Nat) : ContractState :=
  let request := s.s_requests requestId
  { s with
    s_requests := mapUpd s.s_requests requestId
      { request with randomness := v, fulfilled := true } }

/-- An external interaction with the contract. -/
inductive ContractOp where
  | request (sender ts coordId entityHash salt : Nat)
  | fulfill (requestId : Nat) (randomWords : List Nat)

/-- Execute one interaction; a revert leaves storage unchanged. -/
def applyOp (s : ContractState) (op : ContractOp) : ContractState :=
  match op with
  | .request sender ts coordId entityHash salt =>
    match requestRandomness s sender ts coordId entityHash salt with
    | .ok p => p.1
    | .error _ => s
  | .fulfill requestId randomWords =>
    match fulfillRandomWords s requestId randomWords with
    | .ok s2 => s2
    | .error _ => s

/-- Execute a sequence of interactions. -/
def applyOps (s : ContractState) (ops : List ContractOp) : ContractState :=
  ops.foldl applyOp s

/-- Contract storage after one successful `requestRandomness` submission
with `msg.sender = 1`, `block.timestamp = 2`, coordinator id `3`,
`entityHash = 5`, `salt = 7` (used as a concrete evaluation point). -/
def stateAfterFirstSubmit : ContractState :=
  match requestRandomness initialState 1 2 3 5 7 with
  | .ok p => p.1
  | .error _ => initialState

/-- Storage after submitting `entityHash = 5` and fulfilling request `3`
with random word `42`. -/
def stateFulfilled42 : ContractState :=
  applyOp stateAfterFirstSubmit (.fulfill 3 [42])

/-- Storage after fulfilling request `3` a second time, with `43`. -/
def stateFulfilled43 : ContractState :=
  applyOp stateFulfilled42 (.fulfill 3 [43])

/-! ## Mersenne Twister (the `mersenne-twister` package used by `shuffle.ts`)

MT19937 exactly as implemented by the JS package: 624-word state,
`init_seed` recurrence, twist and tempering, all on 32-bit words modelled as
`Nat` with explicit `% 2^32`. -/

/-- One step of `init_seed`:
`mt[i] = (1812433253 * (mt[i-1] ^ (mt[i-1] >>> 30)) + i) >>> 0`
(the JS source splits the multiplication into 16-bit halves to stay exact in
doubles; the net effect is exactly this product mod `2^32`). -/
def mtNextSeedWord (prev i : Nat) : Nat :=
  (1812433253 * (Nat.xor prev (prev / 2 ^ 30)) + i) % 2 ^ 32

/-- Tail of the `init_seed` loop: `fuel` remaining words starting at index
`i`, with `prev` the previously written word. -/
def mtInitAux : Nat → Nat → Nat → List Nat
  | _, _, 0 => []
  | prev, i, fuel + 1 =>
    let x := mtNextSeedWord prev i
    x :: mtInitAux x (i + 1) fuel

/-- The 624-word state array after `init_seed(seed)`
(`mt[0] = seed >>> 0`). -/
def mtInitList (seed : Nat) : List Nat :=
  let x0 := seed % 2 ^ 32
  x0 :: mtInitAux x0 1 623

/-- Generator state: the word array and the cursor `mti`. -/
structure MTState where
  mt : List Nat
  mti : Nat

/-- Constructor `new MersenneTwister(seed)`: after `init_seed`, `mti = 624`, so the
first draw triggers a twist. -/
def mtInit (seed : Nat) : MTState :=
  { mt := mtInitList seed, mti := 624 }

/-- The `mag01[y & 0x1]` table of the reference implementation. -/
def mag01 (y : Nat) : Nat :=
  if y % 2 = 1 then 0x9908b0df else 0

/-- One assignment of the twist loop at index `kk` (the three JS loops are
the same assignment with the wrap-around written out; `% 624` expresses the
wrap uniformly).  Reads see earlier assignments, as in the JS source. -/
def twistStep (m : List Nat) (kk : Nat) : List Nat :=
  let y := Nat.lor (Nat.land (m.getD kk 0) 0x80000000)
                   (Nat.land (m.getD ((kk + 1) % 624) 0) 0x7fffffff)
  m.set kk (Nat.xor (Nat.xor (m.getD ((kk + 397) % 624) 0) (y / 2)) (mag01 y))

/-- The full regeneration pass over all 624 words. -/
def twist (m : List Nat) : List Nat :=
  (List.range 624).foldl twistStep m

/-- The tempering transform of `random_int`, ending with `>>> 0`. -/
def temper (y : Nat) : Nat :=
  let y1 := Nat.xor y (y / 2 ^ 11)
  let y2 := Nat.xor y1 (Nat.land ((y1 * 2 ^ 7) % 2 ^ 32) 0x9d2c5680)
  let y3 := Nat.xor y2 (Nat.land ((y2 * 2 ^ 15) % 2 ^ 32) 0xefc60000)
  Nat.xor y3 (y3 / 2 ^ 18) % 2 ^ 32

/-- Draw `random_int()`: twist when the cursor is exhausted, then temper the word
at the cursor.  Returns the 32-bit draw and the advanced generator. -/
def genrandInt32 (g : MTState) : Nat × MTState :=
  if g.mti ≥ 624 then
    let m := twist g.mt
    (temper (m.getD 0 0), { mt := m, mti := 1 })
  else
    (temper (g.mt.getD g.mti 0), { mt := g.mt, mti := g.mti + 1 })

/-! ## Fisher-Yates shuffle: `src/utils/shuffle.ts` -/

/-- The destructuring swap
`[shuffled[i], shuffled[j]] = [shuffled[j], shuffled[i]]`.
In the source both indices are always in bounds; out-of-bounds reads leave
the list unchanged. -/
def listSwap {α : Type} (l : List α) (i j : Nat) : List α :=
  match l[i]?, l[j]? with
  | some a, some b => (l.set i b).set j a
  | _, _ => l

/-- The `for` loop of `shuffleArray`: the `Nat` argument is the current
loop index `i` (the loop exits once it reaches `0`).
`Math.floor(mt.random() * (i + 1))` with `mt.random() = k / 2^32` is
`k * (i + 1) / 2^32` (exact also in double arithmetic at these sizes). -/
def shuffleLoop : MTState → List String → Nat → List String
  | _, l, 0 => l
  | g, l, i + 1 =>
    let p := genrandInt32 g
    let j := p.1 * (i + 2) / 2 ^ 32
    shuffleLoop p.2 (listSwap l (i + 1) j) i

/-- Function `shuffleArray(array, seed)`: copy the input, seed a Mersenne Twister
with `seed`, and run the Fisher-Yates loop from `length - 1` down to `1`. -/
def shuffleArray (array : List String) (seed : Nat) : List String :=
  shuffleLoop (mtInit seed) array (array.length - 1)

/-! ## JavaScript string utilities -/

/-- The code points treated as whitespace by `String.prototype.trim`
(ECMAScript WhiteSpace and LineTerminator). -/
def isJsWhitespace (c : Char) : Bool :=
  c.toNat == 0x20 || c.toNat == 0x09 || c.toNat == 0x0A || c.toNat == 0x0B ||
  c.toNat == 0x0C || c.toNat == 0x0D || c.toNat == 0xA0 || c.toNat == 0x1680 ||
  (0x2000 ≤ c.toNat && c.toNat ≤ 0x200A) || c.toNat == 0x2028 ||
  c.toNat == 0x2029 || c.toNat == 0x202F || c.toNat == 0x205F ||
  c.toNat == 0x3000 || c.toNat == 0xFEFF

/-- JavaScript `s.trim()`: strip leading and trailing whitespace. -/
def jsTrim (s : String) : String :=
  ⟨((s.data.dropWhile isJsWhitespace).reverse.dropWhile isJsWhitespace).reverse⟩

/-- Helper for `split('\n')`: `acc` holds the current line reversed. -/
def splitLinesAux : List Char → List Char → List String
  | [], acc => [⟨acc.reverse⟩]
  | c :: rest, acc =>
    if c = '\n' then (⟨acc.reverse⟩ : String) :: splitLinesAux rest []
    else splitLinesAux rest (c :: acc)

/-- JavaScript `s.split('\n')`. -/
def jsSplitNewline (s : String) : List String :=
  splitLinesAux s.data []

/-! ## Winner selection: `WinnerSelection.vue` -/

/-- Lines `store.inputData.split('\n').filter(line => line.trim())` — the entry
lines, dropping blank (whitespace-only) lines. -/
def filteredLines (inputData : String) : List String :=
  (jsSplitNewline inputData).filter (fun line => jsTrim line != "")

/-- The `shuffledEntries` computed property: empty when there is no random
value yet (`0` is falsy) or no input data, otherwise the seeded shuffle of
the filtered lines. -/
def shuffledEntries (inputData : String) (randomValue : Nat) : List String :=
  if randomValue = 0 ∨ inputData = "" then []
  else shuffleArray (filteredLines inputData) randomValue

/-- Function `autoPickWinners`: `winners = shuffledEntries.value.slice(0, n)`. -/
def autoPickWinners (shuffled : List String) (numberOfWinners : Nat) : List String :=
  shuffled.take numberOfWinners

/-! ## Hex rendering and salt digest: `stringToBytes32` / `saltToBytes32` -/

/-- Lowercase hex digit for a value below 16. -/
def hexDigitChar (n : Nat) : Char :=
  if n < 10 then Char.ofNat (48 + n) else Char.ofNat (87 + n)

/-- A byte rendered as two lowercase hex characters
(`b.toString(16).padStart(2, '0')`). -/
def byteToHexChars (b : Nat) : List Char :=
  [hexDigitChar (b / 16 % 16), hexDigitChar (b % 16)]

/-- Conversion `Buffer.toString('hex')`: every byte as two lowercase hex digits. -/
def bytesToHex (bs : List Nat) : String :=
  ⟨bs.flatMap byteToHexChars⟩

/-- Function `stringToBytes32` (`part_015` variant, no fallback): keccak256 the
string and render `'0x' + hex`.  The keccak256 primitive comes from the
external `keccak` package and is passed as a function argument. -/
def stringToBytes32 (keccak256 : String → List Nat) (input : String) : String :=
  "0x" ++ bytesToHex (keccak256 input)

/-- The all-zero `bytes32` sentinel for an absent salt. -/
def zeroBytes32 : String :=
  "0x0000000000000000000000000000000000000000000000000000000000000000"

/-- Function `saltToBytes32(salt)`: `none` models `undefined`/`null`.
`!salt` is true for `null`, `undefined` and the empty string; a
whitespace-only salt trims to empty; otherwise the trimmed salt is hashed. -/
def saltToBytes32 (keccak256 : String → List Nat) (salt : Option String) : String :=
  match salt with
  | none => zeroBytes32
  | some s =>
    if s = "" then zeroBytes32
    else if jsTrim s = "" then zeroBytes32
    else stringToBytes32 keccak256 (jsTrim s)

/-! ## Fallback hash: `simpleFallbackHash` of `part_012` -/

/-- One step of the FNV-style second loop:
`hash2 ^= charCode` (a `ToInt32` operation) followed by the double-precision
multiplication `hash2 *= 0x01000193`. -/
def fnvStep (h2 : Int) (c : Nat) : Int :=
  fl53 (xor32 h2 (Int.ofNat c) * 16777619)

/-- The second loop of `simpleFallbackHash`, starting from the FNV offset
basis `0x811c9dc5`. -/
def fnvHash (s : String) : Int :=
  (charCodes s).foldl fnvStep 0x811c9dc5

/-- Hex digits of `n`, most significant first (empty for `0`). -/
def natToHexAux (n : Nat) : List Char :=
  if h : n = 0 then []
  else natToHexAux (n / 16) ++ [hexDigitChar (n % 16)]
termination_by n
decreasing_by exact Nat.div_lt_self (Nat.pos_of_ne_zero h) (by norm_num)

/-- JavaScript `n.toString(16)` for a nonnegative integer-valued number. -/
def natToHex (n : Nat) : List Char :=
  if n = 0 then ['0'] else natToHexAux n

/-- Padding `padStart(width, '0')` on a character list. -/
def padStartZeros (l : List Char) (width : Nat) : List Char :=
  List.replicate (width - l.length) '0' ++ l

/-- Function `simpleFallbackHash(input)`: combine the 32-bit string hash and the
FNV-style hash, render in hex, pad to 64 digits and truncate
(`'0x' + combined.toString(16).padStart(64, '0').slice(0, 64)`).
All double-precision roundings are modelled exactly by `fl53`. -/
def simpleFallbackHash (input : String) : String :=
  let hash := jsStringHash input
  let hash2 := fnvHash input
  let combined := fl53Nat (hash.natAbs + hash2.natAbs)
  "0x" ++ ⟨(padStartZeros (natToHex combined) 64).take 64⟩

/-- Function `stringToBytes32` (`part_012` variant): try keccak256; on an exception
(`none`) fall back to the deterministic non-cryptographic
`simpleFallbackHash` instead of crashing. -/
def stringToBytes32TryCatch (keccakTry : String → Option (List Nat)) (input : String) : String :=
  match keccakTry input with
  | some digest => "0x" ++ bytesToHex digest
  | none => simpleFallbackHash input

/-- Recognizer for a `bytes32`-format string: `0x` followed by exactly 64
lowercase hex digits. -/
def isBytes32HexString (s : String) : Bool :=
  s.data.length == 66 && s.data.take 2 == ['0', 'x'] &&
  (s.data.drop 2).all (fun c => ('0' ≤ c && c ≤ '9') || ('a' ≤ c && c ≤ 'f'))

/-! ## SHA-256: the `crypto.subtle.digest('SHA-256', ...)` primitive used by
`sha256Hash` in `src/utils/hashing.ts`, per FIPS 180-4 -/

/-- UTF-8 bytes of one character (`TextEncoder`). -/
def utf8Bytes (c : Char) : List Nat :=
  let n := c.toNat
  if n < 0x80 then [n]
  else if n < 0x800 then [0xC0 + n / 0x40, 0x80 + n % 0x40]
  else if n < 0x10000 then
    [0xE0 + n / 0x1000, 0x80 + n / 0x40 % 0x40, 0x80 + n % 0x40]
  else
    [0xF0 + n / 0x40000, 0x80 + n / 0x1000 % 0x40,
     0x80 + n / 0x40 % 0x40, 0x80 + n % 0x40]

/-- Encoding `new TextEncoder().encode(input)`. -/
def utf8Encode (s : String) : List Nat :=
  s.data.flatMap utf8Bytes

/-- Addition of 32-bit words. -/
def add32 (a b : Nat) : Nat := (a + b) % 2 ^ 32

/-- Right rotation of a 32-bit word by `n`. -/
def rotr32 (n x : Nat) : Nat :=
  Nat.lor (x / 2 ^ n) (x % 2 ^ n * 2 ^ (32 - n))

/-- Bitwise complement of a 32-bit word. -/
def not32 (x : Nat) : Nat := Nat.xor x 0xFFFFFFFF

/-- SHA-256 `Ch`. -/
def sha2Ch (x y z : Nat) : Nat :=
  Nat.xor (Nat.land x y) (Nat.land (not32 x) z)

/-- SHA-256 `Maj`. -/
def sha2Maj (x y z : Nat) : Nat :=
  Nat.xor (Nat.xor (Nat.land x y) (Nat.land x z)) (Nat.land y z)

/-- SHA-256 `Σ0`. -/
def bigSigma0 (x : Nat) : Nat :=
  Nat.xor (Nat.xor (rotr32 2 x) (rotr32 13 x)) (rotr32 22 x)

/-- SHA-256 `Σ1`. -/
def bigSigma1 (x : Nat) : Nat :=
  Nat.xor (Nat.xor (rotr32 6 x) (rotr32 11 x)) (rotr32 25 x)

/-- SHA-256 `σ0`. -/
def smallSigma0 (x : Nat) : Nat :=
  Nat.xor (Nat.xor (rotr32 7 x) (rotr32 18 x)) (x / 2 ^ 3)

/-- SHA-256 `σ1`. -/
def smallSigma1 (x : Nat) : Nat :=
  Nat.xor (Nat.xor (rotr32 17 x) (rotr32 19 x)) (x / 2 ^ 10)

/-- The 64 SHA-256 round constants of FIPS 180-4 (in decimal). -/
def sha2K : List Nat :=
  [1116352408, 1899447441, 3049323471, 3921009573, 961987163,
   1508970993, 2453635748, 2870763221, 3624381080, 310598401,
   607225278, 1426881987, 1925078388, 2162078206, 2614888103,
   3248222580, 3835390401, 4022224774, 264347078, 604807628,
   770255983, 1249150122, 1555081692, 1996064986, 2554220882,
   2821834349, 2952996808, 3210313671, 3336571891, 3584528711,
   113926993, 338241895, 666307205, 773529912, 1294757372,
   1396182291, 1695183700, 1986661051, 2177026350, 2456956037,
   2730485921, 2820302411, 3259730800, 3345764771, 3516065817,
   3600352804, 4094571909, 275423344, 430227734, 506948616,
   659060556, 883997877, 958139571, 1322822218, 1537002063,
   1747873779, 1955562222, 2024104815, 2227730452, 2361852424,
   2428436474, 2756734187, 3204031479, 3329325298]

/-- The SHA-256 initial hash value of FIPS 180-4 (in decimal). -/
def sha2H0 : List Nat :=
  [1779033703, 3144134277, 1013904242, 2773480762,
   1359893119, 2600822924, 528734635, 1541459225]

/-- Big-endian 8-byte rendering of the message bit length. -/
def bigEndian8 (n : Nat) : List Nat :=
  [n / 2 ^ 56 % 256, n / 2 ^ 48 % 256, n / 2 ^ 40 % 256, n / 2 ^ 32 % 256,
   n / 2 ^ 24 % 256, n / 2 ^ 16 % 256, n / 2 ^ 8 % 256, n % 256]

/-- SHA-256 padding: append `0x80`, zeros to 56 mod 64, then the bit
length. -/
def sha256Pad (msg : List Nat) : List Nat :=
  msg ++ [0x80] ++ List.replicate ((119 - msg.length % 64) % 64) 0 ++
    bigEndian8 (msg.length * 8)

/-- Group bytes into big-endian 32-bit words. -/
def toWords32 : List Nat → List Nat
  | a :: b :: c :: d :: rest =>
    (a * 2 ^ 24 + b * 2 ^ 16 + c * 2 ^ 8 + d) :: toWords32 rest
  | _ => []

/-- Split a word list into 16-word blocks. -/
def blocks16 : List Nat → List (List Nat)
  | [] => []
  | a :: rest => ((a :: rest).take 16) :: blocks16 ((a :: rest).drop 16)
termination_by l => l.length
decreasing_by simp [List.length_drop]; omega

/-- Extend the message schedule by `fuel` further words. -/
def scheduleExtend (w : List Nat) : Nat → List Nat
  | 0 => w
  | fuel + 1 =>
    let i := w.length
    let wi := add32 (add32 (smallSigma1 (w.getD (i - 2) 0)) (w.getD (i - 7) 0))
                    (add32 (smallSigma0 (w.getD (i - 15) 0)) (w.getD (i - 16) 0))
    scheduleExtend (w ++ [wi]) fuel

/-- The 64-word message schedule of one block. -/
def schedule64 (block : List Nat) : List Nat :=
  scheduleExtend block 48

/-- One SHA-256 compression round on the register vector
`[a, b, c, d, e, f, g, h]`. -/
def sha2Round (st : List Nat) (ki wi : Nat) : List Nat :=
  match st with
  | [a, b, c, d, e, f, g, h] =>
    let t1 := add32 (add32 (add32 h (bigSigma1 e)) (add32 (sha2Ch e f g) ki)) wi
    let t2 := add32 (bigSigma0 a) (sha2Maj a b c)
    [add32 t1 t2, a, b, c, add32 d t1, e, f, g]
  | other => other

/-- Compress one 16-word block into the running hash. -/
def sha2Compress (h : List Nat) (block : List Nat) : List Nat :=
  let w := schedule64 block
  let st := (sha2K.zip w).foldl (fun st p => sha2Round st p.1 p.2) h
  (h.zip st).map (fun p => add32 p.1 p.2)

/-- SHA-256 digest (32 bytes) of a byte sequence. -/
def sha256Bytes (msg : List Nat) : List Nat :=
  let padded := sha256Pad msg
  let final := (blocks16 (toWords32 padded)).foldl sha2Compress sha2H0
  final.flatMap (fun w => [w / 2 ^ 24 % 256, w / 2 ^ 16 % 256, w / 2 ^ 8 % 256, w % 256])

/-- Function `sha256Hash(input)` from `src/utils/hashing.ts`: UTF-8 encode, SHA-256
digest, render each byte as two lowercase hex digits (the `Promise`
resolves to this value). -/
def sha256Hash (input : String) : String :=
  ⟨(sha256Bytes (utf8Encode input)).flatMap byteToHexChars⟩

/-- The entity-hash computation of the submit workflow:
`await sha256Hash(processedData + store.salt)`. -/
def computeEntityHash (processedData salt : String) : String :=
  sha256Hash (processedData ++ salt)

/-! ## Explicit JavaScript environment

The ambient sources of nondeterminism a browser exposes (`Date.now()` and
`Math.random()`), passed explicitly so that dependence on them is visible in
the embedding.  `randFloor k scale` models `Math.floor(Math.random() * scale)`
on the `k`-th draw. -/

structure JsEnv where
  now : Nat
  randFloor : Nat → Nat → Nat

/-- Function `sha256Hash` as executed in a browser environment: the body performs no
access to the clock or to `Math.random` (SHA-256 is a pure function of the
input bytes), so the environment is never consulted. -/
def sha256HashRun (env : JsEnv) (input : String) : String :=
  sha256Hash input

/-- The entity-hash computation as executed in a browser environment. -/
def computeEntityHashRun (env : JsEnv) (processedData salt : String) : String :=
  computeEntityHash processedData salt

/-- Function `shuffleArray` as executed in a browser environment: the only randomness
used is the Mersenne Twister seeded from the `seed` argument, so the
environment is never consulted. -/
def shuffleArrayRun (env : JsEnv) (array : List String) (seed : Nat) : List String :=
  shuffleArray array seed

/-! ## MathRandomDriver: `src/utils/mathRandomDriver.ts`

`localStorage` persistence (`persistData`) only mirrors the in-memory maps
and never changes a return value, so the state is the two maps. -/

/-- An entry of the driver's `pendingRequests` map. -/
structure PendingRequest where
  transactionId : String
  saltBytes32 : String
  timestamp : Nat

/-- The in-memory state of `MathRandomDriver`. -/
structure MathDriverState where
  pendingRequests : String → Option PendingRequest
  completedResults : String → Option Nat

/-- Pointwise update of a string-keyed map (JS `Map.set` / `Map.delete`). -/
def updMap {α : Type} (f : String → Option α) (k : String) (v : Option α) :
    String → Option α :=
  fun x => if x = k then v else f x

/-- A fresh driver with no persisted data. -/
def emptyMathDriver : MathDriverState :=
  { pendingRequests := fun _ => none, completedResults := fun _ => none }

/-- Method `MathRandomDriver.fetchRandomness(entityHash)` (lines 109-168):
1. a stored completed result is returned as-is;
2. an unknown hash gets a fabricated result
   `Math.abs(hash) + Math.floor(Math.random() * 1000000)` which is stored
   and returned;
3. a pending request younger than 2000 ms returns `0`;
4. a pending request at least 2000 ms old is completed with
   `Math.abs(hash) * 997 + Math.floor(Math.random() * 1000000)`. -/
def fetchRandomnessMD (env : JsEnv) (st : MathDriverState) (entityHash : String) :
    Nat × MathDriverState :=
  match st.completedResults entityHash with
  | some existingResult => (existingResult, st)
  | none =>
    match st.pendingRequests entityHash with
    | none =>
      let hash := jsStringHash entityHash
      let randomValue := hash.natAbs + env.randFloor 0 1000000
      (randomValue,
       { st with completedResults := updMap st.completedResults entityHash (some randomValue) })
    | some request =>
      if (env.now : Int) - request.timestamp < 2000 then (0, st)
      else
        let hash := jsStringHash entityHash
        let randomValue := hash.natAbs * 997 + env.randFloor 0 1000000
        (randomValue,
         { pendingRequests := updMap st.pendingRequests entityHash none
           completedResults := updMap st.completedResults entityHash (some randomValue) })

/-- The fabricated value of the unknown-hash branch. -/
def fabricatedValue (env : JsEnv) (entityHash : String) : Nat :=
  (jsStringHash entityHash).natAbs + env.randFloor 0 1000000

/-- A browser environment with clock at `0` whose `Math.random` draws are
all `0`. -/
def env0 : JsEnv :=
  { now := 0, randFloor := fun _ _ => 0 }

/-- A driver state with one pending request for `"p"` made at time `0`. -/
def pendingMathDriver : MathDriverState :=
  { pendingRequests := updMap (fun _ => none) "p"
      (some { transactionId := "0xt", saltBytes32 := "0x0", timestamp := 0 })
    completedResults := fun _ => none }

/-! ## API3 QRNG driver: `part_000` (`API3QRNGDriver`) -/

/-- The decoded `/v1/status` response body. -/
structure QRNGResponse where
  status : String
  randomNumber : Option String

/-- Driver state: the request map and the `entityHash → requestId` index. -/
structure API3State where
  pendingRequests : String → Option Unit
  entityHashToRequestId : String → Option String

/-- Pointwise update of the request-id index. -/
def updIdx {α : Type} (f : String → Option α) (k : String) (v : Option α) :
    String → Option α :=
  fun x => if x = k then v else f x

/-- Rewrite `s.replace(/^0x/, '')`. -/
def stripHex0x (s : String) : String :=
  match s.data with
  | '0' :: 'x' :: rest => ⟨rest⟩
  | _ => s

/-- Hex digit value, accepting both cases (as `parseInt(..., 16)` does). -/
def hexVal (c : Char) : Option Nat :=
  if '0' ≤ c ∧ c ≤ '9' then some (c.toNat - 48)
  else if 'a' ≤ c ∧ c ≤ 'f' then some (c.toNat - 87)
  else if 'A' ≤ c ∧ c ≤ 'F' then some (c.toNat - 55)
  else none

/-- Parsing `parseInt(s, 16)` on a nonnegative literal: the longest leading run of
hex digits, `none` for `NaN` (no digits). -/
def parseIntHex (s : String) : Option Nat :=
  let digits := s.data.takeWhile (fun c => (hexVal c).isSome)
  if digits = [] then none
  else some (digits.foldl (fun acc c => acc * 16 + (hexVal c).getD 0) 0)

/-- Method `parseRandomNumber`: strip `0x`, parse as hex, throw (`none`) unless the
value is a positive safe integer (`Number.isSafeInteger` fails from `2^53`
up, where `parseInt`'s double result is no longer exact). -/
def parseRandomNumber (randomHex : String) : Option Nat :=
  match parseIntHex (stripHex0x randomHex) with
  | none => none
  | some v => if v = 0 ∨ 2 ^ 53 ≤ v then none else some v

/-- Method `API3QRNGDriver.fetchRandomness(entityHash)` (lines 89-144).
`api` models the HTTP status endpoint: `none` is a network failure (the
outer `catch` turns any throw into a `0` return).  On a `completed`
response the driver deletes its tracking entries *before* parsing, so the
cleanup survives even a parse failure. -/
def fetchRandomnessAPI3 (api : String → Option QRNGResponse) (st : API3State)
    (entityHash : String) : Nat × API3State :=
  match st.entityHashToRequestId entityHash with
  | none => (0, st)
  | some requestId =>
    match api requestId with
    | none => (0, st)
    | some response =>
      if response.status = "completed" then
        match response.randomNumber with
        | none => (0, st)
        | some randomHex =>
          let st2 : API3State :=
            { pendingRequests := updIdx st.pendingRequests requestId none
              entityHashToRequestId := updIdx st.entityHashToRequestId entityHash none }
          match parseRandomNumber randomHex with
          | none => (0, st2)
          | some v => (v, st2)
      else if response.status = "pending" then (0, st)
      else if response.status = "failed" then
        (0, { pendingRequests := updIdx st.pendingRequests requestId none
              entityHashToRequestId := updIdx st.entityHashToRequestId entityHash none })
      else (0, st)

/-- A status endpoint on which request `"r1"` is completed with the random
number `0x2a` (= 42). -/
def api42 : String → Option QRNGResponse :=
  fun rid => if rid = "r1" then some { status := "completed", randomNumber := some "0x2a" }
             else none

/-- An API3 driver that has issued request `"r1"` for entity hash `"e1"`. -/
def api3StateE1 : API3State :=
  { pendingRequests := updIdx (fun _ => none) "r1" (some ())
    entityHashToRequestId := updIdx (fun _ => none) "e1" (some "r1") }

/-! ## Reference-passing model of `shuffleArray` (frame property)

JavaScript arrays are references into a heap; `shuffleArray` first copies
its argument (`[...array]`) and then swaps in place on the copy only.  The
heap is a list of arrays addressed by index. -/

/-- A heap of string arrays. -/
abbrev Heap : Type := List (List String)

/-- The in-place loop acting on the heap slot `ref`. -/
def shuffleLoopImp (ref : Nat) : Heap → MTState → Nat → Heap
  | hp, _, 0 => hp
  | hp, g, i + 1 =>
    let arr := hp.getD ref []
    let p := genrandInt32 g
    let j := p.1 * (i + 2) / 2 ^ 32
    shuffleLoopImp ref (hp.set ref (listSwap arr (i + 1) j)) p.2 i

/-- Function `shuffleArray` in the reference-passing model: allocate the copy
`[...array]` as a fresh heap slot, shuffle that slot in place, and return
the new heap together with the reference to the result. -/
def shuffleArrayImp (hp : Heap) (arrayRef : Nat) (seed : Nat) : Heap × Nat :=
  let array := hp.getD arrayRef []
  let newRef := hp.length
  (shuffleLoopImp newRef (hp ++ [array]) (mtInit seed) (array.length - 1), newRef)

/-! ## Theorems -/

/-- Marking a hash processed is permanent: no interaction resets it. -/
theorem processed_mono (s : ContractState) (op : ContractOp) (eh : Nat)
    (h : s.processedEntityHashes eh = true) :
    (applyOp s op).processedEntityHashes eh = true := by
  cases op with
  | request sender ts coordId eh2 salt =>
    simp only [applyOp, requestRandomness]
    by_cases hp : s.processedEntityHashes eh2
    · simp [hp, h]
    · simp only [hp, if_false, Bool.false_eq_true]
      simp only [mapUpd]
      by_cases he : eh = eh2 <;> simp [he, h]
  | fulfill rid ws =>
    simp only [applyOp, fulfillRandomWords]
    by_cases ht : (s.s_requests rid).timestamp = 0 <;> simp [ht, h]

/-- Lemma `processed_mono` extended to arbitrary interaction sequences. -/
theorem processed_mono_ops (s : ContractState) (ops : List ContractOp) (eh : Nat)
    (h : s.processedEntityHashes eh = true) :
    (applyOps s ops).processedEntityHashes eh = true := by
  induction ops generalizing s with
  | nil => exact h
  | cons op rest ih =>
    exact ih (applyOp s op) (processed_mono s op eh h)

/-- A successful submission marks its entity hash processed. -/
theorem requestRandomness_marks_processed (s s2 : ContractState)
    (sender ts coordId eh salt rid : Nat)
    (hfirst : requestRandomness s sender ts coordId eh salt = .ok (s2, rid)) :
    s2.processedEntityHashes eh = true := by
  unfold requestRandomness at hfirst
  by_cases hp : s.processedEntityHashes eh
  · simp [hp] at hfirst
  · simp only [hp, Bool.false_eq_true, if_false, Except.ok.injEq, Prod.mk.injEq] at hfirst
    obtain ⟨hs2, _⟩ := hfirst
    subst hs2
    simp [mapUpd]

/-- C1: after one successful `requestRandomness` submission for `eh`, and after
any further sequence of contract interactions, a second submission with the
same `eh` always reverts with `EntityAlreadyProcessed eh` — regardless of the
salt, sender, timestamp or coordinator id of the second call — and, since the
call reverts, it leaves the contract storage unchanged (no second record). -/
theorem requestRandomness_one_shot (s s2 : ContractState)
    (sender ts coordId eh salt rid : Nat)
    (hfirst : requestRandomness s sender ts coordId eh salt = .ok (s2, rid))
    (ops : List ContractOp) (sender2 ts2 coordId2 salt2 : Nat) :
    requestRandomness (applyOps s2 ops) sender2 ts2 coordId2 eh salt2 =
      .error (.EntityAlreadyProcessed eh) ∧
    applyOp (applyOps s2 ops) (.request sender2 ts2 coordId2 eh salt2) =
      applyOps s2 ops := by
  have hmark := requestRandomness_marks_processed s s2 sender ts coordId eh salt rid hfirst
  have hproc := processed_mono_ops s2 ops eh hmark
  constructor
  · unfold requestRandomness
    simp [hproc]
  · unfold applyOp requestRandomness
    simp [hproc]

/-- Witness for C1: concretely, after submitting `entityHash = 5` from sender
`1` at timestamp `2` with coordinator id `3` and salt `7`, a second submission
of hash `5` with different salt `9` and sender `4` reverts. -/
theorem requestRandomness_one_shot_witness :
    requestRandomness (applyOps stateAfterFirstSubmit []) 4 6 8 5 9 =
      .error (.EntityAlreadyProcessed 5) ∧
    applyOp (applyOps stateAfterFirstSubmit []) (.request 4 6 8 5 9) =
      applyOps stateAfterFirstSubmit [] :=
  requestRandomness_one_shot initialState stateAfterFirstSubmit 1 2 3 5 7 3 rfl [] 4 6 8 9

/-- Counterexample to C2 as stated: fulfilling request `3` with `42` and then
again with `43` leaves `randomness = 43`, not the first value `42` — the
second fulfillment is accepted but overwrites the stored random value. -/
theorem fulfill_second_overwrites_counterexample :
    (stateFulfilled42.s_requests 3).randomness = 42 ∧
    (stateFulfilled42.s_requests 3).fulfilled = true ∧
    (stateFulfilled43.s_requests 3).randomness = 43 ∧
    ¬ (stateFulfilled43.s_requests 3).randomness = 42 := by
  refine ⟨rfl, rfl, rfl, ?_⟩
  decide

/-- C2 (amended): for every record that exists (`timestamp ≠ 0`), calling
`fulfillRandomWords(id, [v1])` and then `fulfillRandomWords(id, [v2])`
succeeds both times (a repeated fulfillment is accepted, not an error), but
the second write overwrites the first: the record ends with
`randomness = v2` and `fulfilled = true` — last write wins. -/
theorem fulfill_last_write_wins (s : ContractState) (rid v1 v2 : Nat)
    (hrec : (s.s_requests rid).timestamp ≠ 0) :
    ∃ s1 s2,
      fulfillRandomWords s rid [v1] = .ok s1 ∧
      fulfillRandomWords s1 rid [v2] = .ok s2 ∧
      (s1.s_requests rid).randomness = v1 ∧
      (s2.s_requests rid).randomness = v2 ∧
      (s2.s_requests rid).fulfilled = true := by
  refine ⟨fulfillOnce s rid v1, fulfillOnce (fulfillOnce s rid v1) rid v2,
          ?_, ?_, ?_, ?_, ?_⟩
  · simp [fulfillRandomWords, fulfillOnce, hrec]
  · simp [fulfillRandomWords, fulfillOnce, mapUpd, hrec]
  · simp [fulfillOnce, mapUpd]
  · simp [fulfillOnce, mapUpd]
  · simp [fulfillOnce, mapUpd]

/-- Witness for the amended C2 at a concrete record: request `3` submitted at
timestamp `2`, fulfilled with `42` then `43`; the record ends at `43`. -/
theorem fulfill_last_write_wins_witness :
    ∃ s1 s2,
      fulfillRandomWords stateAfterFirstSubmit 3 [42] = .ok s1 ∧
      fulfillRandomWords s1 3 [43] = .ok s2 ∧
      (s1.s_requests 3).randomness = 42 ∧
      (s2.s_requests 3).randomness = 43 ∧
      (s2.s_requests 3).fulfilled = true :=
  fulfill_last_write_wins stateAfterFirstSubmit 3 42 43 (by decide)

/-- Swapping two positions of a list yields a permutation of it. -/
theorem listSwap_perm {α : Type} [DecidableEq α] (l : List α) (i j : Nat) :
    (listSwap l i j).Perm l := by
  unfold listSwap
  cases hi : l[i]? with
  | none => cases hj : l[j]? <;> exact List.Perm.refl l
  | some a =>
    cases hj : l[j]? with
    | none => exact List.Perm.refl l
    | some b =>
      obtain ⟨hilen, hia⟩ := List.getElem?_eq_some_iff.mp hi
      obtain ⟨hjlen, hjb⟩ := List.getElem?_eq_some_iff.mp hj
      rw [List.perm_iff_count]
      intro c
      have hjlen2 : j < (l.set i b).length := by simpa using hjlen
      have hmid : (l.set i b)[j]? = some b := by
        rw [List.getElem?_set]
        by_cases hij : i = j
        · subst hij; simp [hilen]
        · simp [hij, hj]
      obtain ⟨hjlen3, hmideq⟩ := List.getElem?_eq_some_iff.mp hmid
      rw [List.count_set a c (l.set i b) j hjlen2, hmideq,
          List.count_set b c l i hilen, hia]
      have hmem : a ∈ l := hia ▸ l.getElem_mem hilen
      have hle : (if (a == c) = true then 1 else 0) ≤ List.count c l := by
        by_cases hac : a = c
        · subst hac
          simpa using List.count_pos_iff.mpr hmem
        · simp [hac]
      generalize (if (a == c) = true then 1 else 0) = p at hle ⊢
      generalize (if (b == c) = true then 1 else 0) = q
      omega

/-- C3: for every list of entries and every seed, `shuffleArray` returns a
permutation of its input (same multiset) of the same length. -/
theorem shuffleLoop_perm (fuel : Nat) :
    ∀ (g : MTState) (l : List String), (shuffleLoop g l fuel).Perm l := by
  induction fuel with
  | zero => intro g l; exact List.Perm.refl l
  | succ i ih =>
    intro g l
    exact (ih _ _).trans (listSwap_perm l (i + 1) _)

/-- C3: `shuffleArray entries seed` is a permutation of `entries` — same
multiset of elements and same length — for every seed. -/
theorem shuffleArray_permutation (entries : List String) (seed : Nat) :
    (shuffleArray entries seed).Perm entries ∧
    (shuffleArray entries seed).length = entries.length := by
  have h := shuffleLoop_perm (entries.length - 1) (mtInit seed) entries
  exact ⟨h, h.length_eq⟩

/-- C6: `saltToBytes32` maps `null`/`undefined`, the empty string and a
whitespace-only string to the all-zero sentinel digest (never to the hash of
the empty string), and trims surrounding whitespace before hashing, so
`saltToBytes32(" x ")` equals `saltToBytes32("x")` — for any keccak256
primitive. -/
theorem saltToBytes32_sentinel (keccak256 : String → List Nat) :
    saltToBytes32 keccak256 none = zeroBytes32 ∧
    saltToBytes32 keccak256 (some "") = zeroBytes32 ∧
    (∀ s : String, s.data.all isJsWhitespace = true →
      saltToBytes32 keccak256 (some s) = zeroBytes32) ∧
    saltToBytes32 keccak256 (some " x ") = saltToBytes32 keccak256 (some "x") := by
  refine ⟨rfl, rfl, ?_, ?_⟩
  · intro s hws
    have htrim : jsTrim s = "" := by
      unfold jsTrim
      have h1 : s.data.dropWhile isJsWhitespace = [] := by
        rw [List.dropWhile_eq_nil_iff]
        intro x hx
        exact List.all_eq_true.mp hws x hx
      rw [h1]
      rfl
    show (if s = "" then zeroBytes32
          else if jsTrim s = "" then zeroBytes32
          else stringToBytes32 keccak256 (jsTrim s)) = zeroBytes32
    by_cases hse : s = ""
    · rw [if_pos hse]
    · rw [if_neg hse, if_pos htrim]
  · show (if (" x " : String) = "" then zeroBytes32
          else if jsTrim " x " = "" then zeroBytes32
          else stringToBytes32 keccak256 (jsTrim " x "))
        = (if ("x" : String) = "" then zeroBytes32
          else if jsTrim "x" = "" then zeroBytes32
          else stringToBytes32 keccak256 (jsTrim "x"))
    rw [(by decide : jsTrim " x " = "x"), (by decide : jsTrim "x" = "x"),
        if_neg (by decide : ¬(" x " : String) = ""),
        if_neg (by decide : ¬("x" : String) = ""),
        if_neg (by decide : ¬("x" : String) = "")]

/-- Witness for C6: the concretely whitespace-only salt `"   "` maps to the
zero sentinel (with an arbitrary concrete keccak). -/
theorem saltToBytes32_sentinel_witness :
    saltToBytes32 (fun _ => []) (some "   ") = zeroBytes32 :=
  (saltToBytes32_sentinel (fun _ => [])).2.2.1 "   " (by decide)

/-- C7: `autoPickWinners` returns exactly the first `n` entries of the
shuffled list, in order; when `n` is at least the length it returns the
whole shuffled list (clamped) rather than failing. -/
theorem autoPickWinners_spec (inputData : String) (randomValue n : Nat) :
    (autoPickWinners (shuffledEntries inputData randomValue) n).length
        = min n (shuffledEntries inputData randomValue).length ∧
    (∀ i, i < n →
      (autoPickWinners (shuffledEntries inputData randomValue) n)[i]?
        = (shuffledEntries inputData randomValue)[i]?) ∧
    ((shuffledEntries inputData randomValue).length ≤ n →
      autoPickWinners (shuffledEntries inputData randomValue) n
        = shuffledEntries inputData randomValue) := by
  refine ⟨?_, ?_, ?_⟩
  · simpa [autoPickWinners] using
      List.length_take n (shuffledEntries inputData randomValue)
  · intro i hi
    exact List.getElem?_take_of_lt hi
  · intro hle
    exact List.take_of_length_le hle

/-- Witness for C7 at input `"a"` with random value `1` and `n = 2`:
the single entry is returned whole (clamped), and position `0` of the
winners list agrees with the shuffled list. -/
theorem autoPickWinners_spec_witness :
    (autoPickWinners (shuffledEntries "a" 1) 2)[0]?
      = (shuffledEntries "a" 1)[0]? ∧
    autoPickWinners (shuffledEntries "a" 1) 2 = shuffledEntries "a" 1 :=
  ⟨(autoPickWinners_spec "a" 1 2).2.1 0 (by decide),
   (autoPickWinners_spec "a" 1 2).2.2 (by decide)⟩

/-- Digits produced by `hexDigitChar` below 16 are lowercase hex digits. -/
theorem hexDigitChar_isHex (n : Nat) (h : n < 16) :
    (('0' ≤ hexDigitChar n && hexDigitChar n ≤ '9') ||
     ('a' ≤ hexDigitChar n && hexDigitChar n ≤ 'f')) = true := by
  interval_cases n <;> decide

/-- Every character of `natToHexAux n` is a lowercase hex digit. -/
theorem natToHexAux_isHex (n : Nat) :
    ∀ c ∈ natToHexAux n,
      (('0' ≤ c && c ≤ '9') || ('a' ≤ c && c ≤ 'f')) = true := by
  induction n using Nat.strong_induction_on with
  | _ n ih =>
    intro c hc
    rw [natToHexAux] at hc
    by_cases h0 : n = 0
    · simp [h0] at hc
    · simp only [h0, dif_neg, not_false_iff, List.mem_append,
        List.mem_singleton] at hc
      rcases hc with hc | hc
      · exact ih (n / 16) (Nat.div_lt_self (Nat.pos_of_ne_zero h0) (by norm_num)) c hc
      · subst hc
        exact hexDigitChar_isHex (n % 16) (Nat.mod_lt n (by norm_num))

/-- Every character of `natToHex n` is a lowercase hex digit. -/
theorem natToHex_isHex (n : Nat) :
    ∀ c ∈ natToHex n,
      (('0' ≤ c && c ≤ '9') || ('a' ≤ c && c ≤ 'f')) = true := by
  intro c hc
  unfold natToHex at hc
  by_cases h0 : n = 0
  · simp [h0] at hc
    subst hc; decide
  · simp only [h0, if_neg, not_false_iff] at hc
    exact natToHexAux_isHex n c hc

/-- Function `simpleFallbackHash` always yields `0x` followed by exactly 64 lowercase
hex digits, for every input. -/
theorem simpleFallbackHash_format (input : String) :
    isBytes32HexString (simpleFallbackHash input) = true := by
  unfold simpleFallbackHash isBytes32HexString
  set digits := natToHex (fl53Nat ((jsStringHash input).natAbs + (fnvHash input).natAbs))
    with hdigits
  have hdig : ∀ c ∈ digits,
      (('0' ≤ c && c ≤ '9') || ('a' ≤ c && c ≤ 'f')) = true := by
    intro c hc
    exact natToHex_isHex _ c (hdigits ▸ hc)
  have hpadlen : (padStartZeros digits 64).length = max 64 digits.length := by
    simp [padStartZeros]
    omega
  have hdata : ("0x" ++ (⟨(padStartZeros digits 64).take 64⟩ : String)).data
      = ['0', 'x'] ++ (padStartZeros digits 64).take 64 := by
    rw [String.data_append]
  rw [hdata]
  have hlen : ((padStartZeros digits 64).take 64).length = 64 := by
    rw [List.length_take]
    omega
  have hhex : ∀ c ∈ (padStartZeros digits 64).take 64,
      (('0' ≤ c && c ≤ '9') || ('a' ≤ c && c ≤ 'f')) = true := by
    intro c hc
    have hc2 : c ∈ padStartZeros digits 64 := List.take_subset _ _ hc
    unfold padStartZeros at hc2
    rcases List.mem_append.mp hc2 with hc3 | hc3
    · rw [(List.mem_replicate.mp hc3).2]; decide
    · exact hdig c hc3
  simp only [Bool.and_eq_true, beq_iff_eq, List.all_eq_true]
  refine ⟨⟨?_, ?_⟩, ?_⟩
  · simp [hlen]
  · simp
  · intro c hc
    have hdrop : (((['0', 'x'] : List Char) ++ (padStartZeros digits 64).take 64).drop 2)
        = (padStartZeros digits 64).take 64 := rfl
    rw [hdrop] at hc
    exact hhex c hc

/-- C9: when the keccak primitive throws (`none`), `stringToBytes32` does
not crash: it returns the deterministic `simpleFallbackHash`, and that
fallback digest is always a fixed-length `0x`-prefixed 64-hex-digit string,
for every input. -/
theorem stringToBytes32_fallback (keccakTry : String → Option (List Nat))
    (input : String) (hfail : keccakTry input = none) :
    stringToBytes32TryCatch keccakTry input = simpleFallbackHash input ∧
    isBytes32HexString (stringToBytes32TryCatch keccakTry input) = true := by
  have h1 : stringToBytes32TryCatch keccakTry input = simpleFallbackHash input := by
    unfold stringToBytes32TryCatch
    rw [hfail]
  exact ⟨h1, h1 ▸ simpleFallbackHash_format input⟩

/-- Witness for C9: a keccak primitive that always throws still produces a
well-formed fallback digest on the concrete input `"abc"`. -/
theorem stringToBytes32_fallback_witness :
    stringToBytes32TryCatch (fun _ => none) "abc" = simpleFallbackHash "abc" ∧
    isBytes32HexString (stringToBytes32TryCatch (fun _ => none) "abc") = true :=
  stringToBytes32_fallback (fun _ => none) "abc" rfl

/-- C8: both core pure functions are deterministic — their results do not
depend on the browser environment (clock, `Math.random`), only on their
arguments: two executions in arbitrary environments on identical inputs
yield identical entity hashes and identical shuffles. -/
theorem core_functions_deterministic (env1 env2 : JsEnv) (data salt : String)
    (entries : List String) (seed : Nat) :
    computeEntityHashRun env1 data salt = computeEntityHashRun env2 data salt ∧
    shuffleArrayRun env1 entries seed = shuffleArrayRun env2 entries seed :=
  ⟨rfl, rfl⟩

/-- Counterexample to C4 as stated: on the never-requested entity hash
`"abc"` (no record, no pending request), `MathRandomDriver.fetchRandomness`
does not return `0` — it fabricates the value
`Math.abs(hash("abc")) + floor(rand * 1e6) = 96354` (with a zero random
draw) and stores it as a completed result. -/
theorem fetchRandomnessMD_fabricates_counterexample :
    (fetchRandomnessMD env0 emptyMathDriver "abc").1 = 96354 ∧
    ¬ (fetchRandomnessMD env0 emptyMathDriver "abc").1 = 0 ∧
    (fetchRandomnessMD env0 emptyMathDriver "abc").2.completedResults "abc"
      = some 96354 := by
  refine ⟨by decide, by decide, by decide⟩

/-- C4 (amended): `MathRandomDriver.fetchRandomness` returns `0` only for a
hash with a pending request younger than 2000 ms (leaving the state
untouched); for an entity hash on which `requestRandomness` was never called
it fabricates a fresh result — `Math.abs(hash) + floor(random * 1e6)` —
stores it as completed, and returns it instead of `0`. -/
theorem fetchRandomnessMD_amended (env : JsEnv) (st : MathDriverState) (eh : String) :
    (st.completedResults eh = none → st.pendingRequests eh = none →
      (fetchRandomnessMD env st eh).1 = fabricatedValue env eh ∧
      (fetchRandomnessMD env st eh).2.completedResults eh
        = some (fabricatedValue env eh)) ∧
    (∀ req, st.completedResults eh = none → st.pendingRequests eh = some req →
      (env.now : Int) - req.timestamp < 2000 →
      (fetchRandomnessMD env st eh).1 = 0 ∧
      (fetchRandomnessMD env st eh).2 = st) := by
  constructor
  · intro hc hp
    constructor
    · simp [fetchRandomnessMD, hc, hp, fabricatedValue]
    · simp [fetchRandomnessMD, hc, hp, fabricatedValue, updMap]
  · intro req hc hp hlt
    constructor
    · simp [fetchRandomnessMD, hc, hp, hlt]
    · simp [fetchRandomnessMD, hc, hp, hlt]

/-- Witness for the amended C4: the unknown hash `"abc"` gets a fabricated
stored result, and the pending hash `"p"` (requested at time 0, polled at
time 0) yields `0` with the state unchanged. -/
theorem fetchRandomnessMD_amended_witness :
    ((fetchRandomnessMD env0 emptyMathDriver "abc").1 = fabricatedValue env0 "abc" ∧
     (fetchRandomnessMD env0 emptyMathDriver "abc").2.completedResults "abc"
       = some (fabricatedValue env0 "abc")) ∧
    ((fetchRandomnessMD env0 pendingMathDriver "p").1 = 0 ∧
     (fetchRandomnessMD env0 pendingMathDriver "p").2 = pendingMathDriver) :=
  ⟨(fetchRandomnessMD_amended env0 emptyMathDriver "abc").1 rfl rfl,
   (fetchRandomnessMD_amended env0 pendingMathDriver "p").2
     { transactionId := "0xt", saltBytes32 := "0x0", timestamp := 0 }
     rfl rfl (by decide)⟩

/-- C5 at its failing input: with entity hash `"e1"` tracked as request
`"r1"` and the API reporting `completed` with random number `0x2a`, the
first `fetchRandomness("e1")` returns `42` but deletes the
`entityHash → requestId` mapping, so the second call returns `0` instead of
the same value — violating the required "same value on every subsequent
call" behavior. -/
theorem fetchRandomnessAPI3_second_call_returns_zero :
    (fetchRandomnessAPI3 api42 api3StateE1 "e1").1 = 42 ∧
    (fetchRandomnessAPI3 api42 api3StateE1 "e1").2.entityHashToRequestId "e1"
      = none ∧
    (fetchRandomnessAPI3 api42
        ((fetchRandomnessAPI3 api42 api3StateE1 "e1").2) "e1").1 = 0 := by
  refine ⟨by decide, by decide, by decide⟩

/-- Slots other than the shuffled one are never written by the in-place
loop. -/
theorem shuffleLoopImp_frame (ref fuel : Nat) :
    ∀ (hp : Heap) (g : MTState) (rr : Nat), rr ≠ ref →
      (shuffleLoopImp ref hp g fuel)[rr]? = hp[rr]? := by
  induction fuel with
  | zero => intro hp g rr _; rfl
  | succ i ih =>
    intro hp g rr hne
    rw [shuffleLoopImp]
    rw [ih _ _ _ hne]
    exact List.getElem?_set_ne (fun h => hne h.symm)

/-- The in-place loop computes exactly the pure `shuffleLoop` in its slot. -/
theorem shuffleLoopImp_at_ref (ref fuel : Nat) :
    ∀ (hp : Heap) (g : MTState), ref < hp.length →
      (shuffleLoopImp ref hp g fuel).getD ref [] = shuffleLoop g (hp.getD ref []) fuel := by
  induction fuel with
  | zero => intro hp g _; rfl
  | succ i ih =>
    intro hp g href
    rw [shuffleLoopImp, shuffleLoop]
    rw [ih _ _ (by simpa using href)]
    have hset : ((hp.set ref (listSwap (hp.getD ref [])
        (i + 1) ((genrandInt32 g).1 * (i + 2) / 2 ^ 32))).getD ref [])
        = listSwap (hp.getD ref []) (i + 1) ((genrandInt32 g).1 * (i + 2) / 2 ^ 32) := by
      simp [List.getD, List.getElem?_set_self href]
    rw [hset]

/-- C10: `shuffleArray` never mutates its argument.  In the
reference-passing model, the heap slot of the input array is unchanged by
the call, the returned reference is a fresh one (not the argument), and the
fresh slot holds exactly the pure shuffle of the input. -/
theorem shuffleArrayImp_no_mutation (hp : Heap) (r seed : Nat) (hr : r < hp.length) :
    ((shuffleArrayImp hp r seed).1)[r]? = hp[r]? ∧
    (shuffleArrayImp hp r seed).2 ≠ r ∧
    ((shuffleArrayImp hp r seed).1).getD ((shuffleArrayImp hp r seed).2) []
      = shuffleArray (hp.getD r []) seed := by
  unfold shuffleArrayImp shuffleArray
  refine ⟨?_, ?_, ?_⟩
  · rw [shuffleLoopImp_frame _ _ _ _ _ (Nat.ne_of_lt hr)]
    exact List.getElem?_append_left hr
  · intro h
    simp only at h
    omega
  · rw [shuffleLoopImp_at_ref _ _ _ _ (by simp)]
    have hlast : ((hp ++ [hp.getD r []]).getD hp.length []) = hp.getD r [] := by
      simp [List.getD, List.getElem?_concat_length]
    rw [hlast]

/-- Witness for C10 on the one-element heap `[["x"]]`: the input slot is
untouched and the fresh slot holds the shuffle. -/
theorem shuffleArrayImp_no_mutation_witness :
    ((shuffleArrayImp [["x"]] 0 3).1)[0]? = ([["x"]] : Heap)[0]? ∧
    (shuffleArrayImp [["x"]] 0 3).2 ≠ 0 ∧
    ((shuffleArrayImp [["x"]] 0 3).1).getD ((shuffleArrayImp [["x"]] 0 3).2) []
      = shuffleArray (([["x"]] : Heap).getD 0 []) 3 :=
  shuffleArrayImp_no_mutation [["x"]] 0 3 (by decide)

end RandomProof
